import Mathlib

/-!
Shallow embedding of the TaskFlow backend (taskManagerApp.backend).

The route handlers of `src/routes/auth.js`, `src/routes/tasks.js`,
`src/routes/family.js` and `src/routes/dashboard.js` are translated into
pure Lean functions over an explicit database state.  Each SQL statement
becomes the corresponding list operation on the table it touches; the
`withTransaction` wrapper becomes all-or-nothing state passing (on a thrown
error the handler returns the original, unmodified database, which is
exactly a rollback).  JavaScript falsy-coercion defaults (`x || d`,
`s?.trim() || null`) are modelled by explicit helper functions, and dates
and timestamps are modelled as integers (a `week_start` is a day number, so
subtracting 7 days is subtracting 7).
-/

namespace TaskFlow

/-! ## JavaScript-style string and default helpers -/

/-- JavaScript `String.prototype.trim`: drop whitespace at both ends. -/
def jsTrim (s : String) : String :=
  String.mk (((s.data.dropWhile Char.isWhitespace).reverse.dropWhile
    Char.isWhitespace).reverse)

/-- JavaScript `String.prototype.toUpperCase` (ASCII letters). -/
def jsToUpper (s : String) : String :=
  String.mk (s.data.map Char.toUpper)

/-- JavaScript `v || d` for an optional number: `undefined`, `null` and `0`
are falsy and give the default. -/
def jsOrInt (v : Option Int) (d : Int) : Int :=
  match v with
  | none => d
  | some x => if x = 0 then d else x

/-- JavaScript `v || d` for an optional string: `undefined`, `null` and the
empty string are falsy and give the default. -/
def jsOrString (v : Option String) (d : String) : String :=
  match v with
  | none => d
  | some s => if s = "" then d else s

/-- JavaScript `v?.trim() || null`: a missing value or a value that trims
to the empty string is stored as SQL NULL. -/
def trimOrNull (v : Option String) : Option String :=
  match v with
  | none => none
  | some s => if jsTrim s = "" then none else some (jsTrim s)

/-- JavaScript truthiness test for an optional string
(`!s || s.trim().length === 0`). -/
def blankStr (v : Option String) : Bool :=
  match v with
  | none => true
  | some s => jsTrim s == ""

/-! ## Data model (the SQL tables) -/

/-- Row of the `users` table. -/
structure User where
  id : Nat
  username : String
  email : String
  password_hash : String
deriving DecidableEq, Repr

/-- Row of the `tasks` table (personal tasks).  Nullable SQL columns are
`Option`. -/
structure Task where
  id : Nat
  user_id : Nat
  title : String
  description : Option String
  priority : Option Int
  status : Option String
  assigned_to : Nat
  week_start : Int
  archived : Bool
  completed_at : Option Int
  archived_at : Option Int
  created_at : Int
  updated_at : Int
deriving DecidableEq, Repr

/-- Row of the `families` table. -/
structure Family where
  id : Nat
  name : String
  created_by : Nat
  invitation_code : String
deriving DecidableEq, Repr

/-- Row of the `family_members` table. -/
structure FamilyMember where
  family_id : Nat
  user_id : Nat
deriving DecidableEq, Repr

/-- Row of the `family_tasks` table.  The update route writes the raw
request-body values into the columns, so every updatable column is
`Option`. -/
structure FamilyTask where
  id : Nat
  family_id : Nat
  created_by : Nat
  title : Option String
  description : Option String
  priority : Option Int
  status : Option String
  assigned_to : Option Nat
  week_start : Int
  completed_at : Option Int
  created_at : Int
  updated_at : Int
deriving DecidableEq, Repr

/-- The database state: one list per table. -/
structure DB where
  users : List User
  tasks : List Task
  families : List Family
  family_members : List FamilyMember
  family_tasks : List FamilyTask
deriving DecidableEq, Repr

/-- Error taxonomy of the API.  Handlers that call `res.status(...)` in the
source map directly onto a kind; for errors thrown inside a
`withTransaction` body the central error handler middleware is not part of
the source tree, so that mapping is Modelled from the spec: section 7 maps
"already a member" conflicts to `Conflict` and unknown-resource errors to
`NotFound`. -/
inductive ApiError where
  | validation (msg : String)
  | unauthorized (msg : String)
  | forbidden (msg : String)
  | notFound (msg : String)
  | conflict (msg : String)
deriving DecidableEq, Repr

/-! ## Family registry (`src/routes/family.js`, `src/unnamed/part_001`)

Mutating handlers return the response paired with the new database state;
on an error the original state is returned unchanged, which models the
transaction rollback (and, for single-statement handlers, the fact that
nothing was written). -/

/-- Number of `family_members` rows of a given user. -/
def memberCount (db : DB) (userId : Nat) : Nat :=
  (db.family_members.filter (fun m => m.user_id == userId)).length

/-- POST `/api/family/create`.  The generated invitation code
(`generateInvitationCode`, an external helper) and the fresh family id (the
SQL sequence) are passed as arguments. -/
def familyCreate (userId : Nat) (name : String) (code : String)
    (newFamilyId : Nat) (db : DB) : Except ApiError Family × DB :=
  if db.family_members.any (fun m => m.user_id == userId) then
    (.error (.conflict "You are already a member of a family"), db)
  else
    let fam : Family :=
      { id := newFamilyId, name := jsTrim name, created_by := userId,
        invitation_code := code }
    (.ok fam,
      { db with
        families := db.families ++ [fam],
        family_members := db.family_members ++
          [{ family_id := newFamilyId, user_id := userId }] })

/-- POST `/api/family/join`. -/
def familyJoin (userId : Nat) (invitationCode : Option String) (db : DB) :
    Except ApiError (Nat × String) × DB :=
  if blankStr invitationCode then
    (.error (.validation "Invitation code is required"), db)
  else if db.family_members.any (fun m => m.user_id == userId) then
    (.error (.conflict "You are already a member of a family"), db)
  else
    match db.families.find? (fun f =>
        f.invitation_code == jsToUpper (jsTrim (invitationCode.getD ""))) with
    | none => (.error (.notFound "Invalid invitation code"), db)
    | some fam =>
      (.ok (fam.id, fam.name),
        { db with family_members := db.family_members ++
            [{ family_id := fam.id, user_id := userId }] })

/-! ## Personal task ledger (`src/routes/tasks.js`) -/

/-- Modelled from the spec: the `validateTask` middleware is not in the
source tree; per section 4.2 a create (and the same middleware guards the
update route) fails with a `ValidationError` when the title is empty. -/
def validTitle (title : String) : Bool :=
  !(jsTrim title == "")

/-- POST `/api/tasks`.  `getCurrentWeekStart` is an external helper, so the
current week bucket is an argument; `newId` is the SQL sequence value and
`now` the current timestamp. -/
def createTask (userId : Nat) (title : String) (description : Option String)
    (priority : Option Int) (status : Option String) (weekStart : Int)
    (newId : Nat) (now : Int) (db : DB) : Except ApiError Task × DB :=
  if !validTitle title then
    (.error (.validation "Title is required"), db)
  else
    let t : Task :=
      { id := newId, user_id := userId, title := jsTrim title,
        description := trimOrNull description,
        priority := some (jsOrInt priority 1),
        status := some (jsOrString status "pending"),
        assigned_to := userId, week_start := weekStart, archived := false,
        completed_at := if status == some "completed" then some now else none,
        archived_at := none, created_at := now, updated_at := now }
    (.ok t, { db with tasks := db.tasks ++ [t] })

/-- The column writes of the personal-task UPDATE statement. -/
def applyTaskUpdate (title : String) (description : Option String)
    (priority : Option Int) (status : Option String) (now : Int)
    (t : Task) : Task :=
  { t with
      title := jsTrim title,
      description := description.map jsTrim,
      priority := priority,
      status := status,
      completed_at := if status == some "completed" then some now else none,
      updated_at := now }

/-- PUT `/api/tasks/:id`. -/
def updateTask (userId taskId : Nat) (title : String)
    (description : Option String) (priority : Option Int)
    (status : Option String) (now : Int) (db : DB) :
    Except ApiError Task × DB :=
  if !validTitle title then
    (.error (.validation "Title is required"), db)
  else
    match db.tasks.find? (fun t => t.id == taskId && t.user_id == userId) with
    | none => (.error (.notFound "Task not found"), db)
    | some t0 =>
      (.ok (applyTaskUpdate title description priority status now t0),
        { db with tasks := db.tasks.map (fun t =>
            if t.id == taskId && t.user_id == userId then
              applyTaskUpdate title description priority status now t
            else t) })

/-- DELETE `/api/tasks/:id`. -/
def deleteTask (userId taskId : Nat) (db : DB) :
    Except ApiError String × DB :=
  if db.tasks.any (fun t => t.id == taskId && t.user_id == userId) then
    (.ok "Task deleted successfully",
      { db with tasks := db.tasks.filter (fun t =>
          !(t.id == taskId && t.user_id == userId)) })
  else
    (.error (.notFound "Task not found"), db)

/-- The WHERE clause of the archive UPDATE: the user's non-archived tasks
whose week bucket is strictly before the previous week's bucket. -/
def archiveEligible (userId : Nat) (lastWeek : Int) (t : Task) : Bool :=
  t.user_id == userId && decide (t.week_start < lastWeek) && !t.archived

/-- POST `/api/tasks/archive`.  `lastWeek` is the current week start minus
7 days; the handler returns the number of rows archived. -/
def archiveTasks (userId : Nat) (weekStart : Int) (now : Int) (db : DB) :
    Nat × DB :=
  let lastWeek := weekStart - 7
  ((db.tasks.filter (archiveEligible userId lastWeek)).length,
    { db with tasks := db.tasks.map (fun t =>
        if archiveEligible userId lastWeek t then
          { t with archived := true, archived_at := some now }
        else t) })

/-! ## Family task ledger (`src/routes/family.js`) -/

/-- The families-join-members lookup used by `/info` and the family-task
create: the family the user belongs to, if any. -/
def userFamily (userId : Nat) (db : DB) : Option Family :=
  db.families.find? (fun f =>
    db.family_members.any (fun m =>
      m.family_id == f.id && m.user_id == userId))

/-- POST `/api/family/tasks`.  The `status` column is not part of the
INSERT; its value is the schema default, Modelled from the spec: new tasks
start as `pending`. -/
def familyTaskCreate (userId : Nat) (title : Option String)
    (description : Option String) (priority : Option Int)
    (assigned_to : Option Nat) (weekStart : Int) (newId : Nat) (now : Int)
    (db : DB) : Except ApiError FamilyTask × DB :=
  if blankStr title then
    (.error (.validation "Task title is required"), db)
  else if assigned_to == none || assigned_to == some 0 then
    (.error (.validation "Assigned user is required"), db)
  else
    match userFamily userId db with
    | none => (.error (.notFound "You are not part of any family"), db)
    | some fam =>
      if fam.created_by != userId then
        (.error (.forbidden "Only the family leader can create tasks"), db)
      else
        let t : FamilyTask :=
          { id := newId, family_id := fam.id, created_by := userId,
            title := some (jsTrim (title.getD "")),
            description := trimOrNull description,
            priority := some (jsOrInt priority 1), status := some "pending",
            assigned_to := assigned_to, week_start := weekStart,
            completed_at := none, created_at := now, updated_at := now }
        (.ok t, { db with family_tasks := db.family_tasks ++ [t] })

/-- The SELECT of the family-task update route: the task joined with its
family, restricted to families the requester is a member of. -/
def familyTaskLookup (userId taskId : Nat) (db : DB) :
    Option (FamilyTask × Family) :=
  match db.family_tasks.find? (fun ft => ft.id == taskId) with
  | none => none
  | some ft =>
    match db.families.find? (fun f => f.id == ft.family_id) with
    | none => none
    | some f =>
      if db.family_members.any (fun m =>
          m.family_id == ft.family_id && m.user_id == userId) then
        some (ft, f)
      else none

/-- The column writes of the family-task UPDATE statement (raw body
values). -/
def applyFamilyTaskUpdate (title description : Option String)
    (priority : Option Int) (status : Option String)
    (assigned_to : Option Nat) (now : Int) (t : FamilyTask) : FamilyTask :=
  { t with
      title := title,
      description := description,
      priority := priority,
      status := status,
      assigned_to := assigned_to,
      completed_at := if status == some "completed" then some now else none,
      updated_at := now }

/-- PUT `/api/family/tasks/:taskId`. -/
def familyTaskUpdate (userId taskId : Nat) (title description : Option String)
    (priority : Option Int) (status : Option String)
    (assigned_to : Option Nat) (now : Int) (db : DB) :
    Except ApiError FamilyTask × DB :=
  match familyTaskLookup userId taskId db with
  | none => (.error (.notFound "Task not found"), db)
  | some (ft, f) =>
    if f.created_by != userId && ft.assigned_to != some userId then
      (.error (.forbidden "You don\x27t have permission to update this task"),
        db)
    else
      (.ok (applyFamilyTaskUpdate title description priority status
          assigned_to now ft),
        { db with family_tasks := db.family_tasks.map (fun t =>
            if t.id == taskId then
              applyFamilyTaskUpdate title description priority status
                assigned_to now t
            else t) })

/-- The SELECT of the family-task delete route: does a task with this id
exist in a family whose leader is the requester? -/
def familyTaskDeleteAllowed (userId taskId : Nat) (db : DB) : Bool :=
  match db.family_tasks.find? (fun ft => ft.id == taskId) with
  | none => false
  | some ft =>
    match db.families.find? (fun f => f.id == ft.family_id) with
    | none => false
    | some f => f.created_by == userId

/-- DELETE `/api/family/tasks/:taskId`. -/
def familyTaskDelete (userId taskId : Nat) (db : DB) :
    Except ApiError String × DB :=
  if familyTaskDeleteAllowed userId taskId db then
    (.ok "Task deleted successfully",
      { db with family_tasks :=
          db.family_tasks.filter (fun t => !(t.id == taskId)) })
  else
    (.error
      (.notFound "Task not found or you don\x27t have permission to delete it"),
      db)

/-! ## Credential store (`src/routes/auth.js`, `src/unnamed/part_000`)

`bcrypt.compare` is external infrastructure, so the password check is a
function argument. -/

/-- Successful login payload (user summary; the signed token is issued by
an external helper). -/
structure LoginOk where
  id : Nat
  username : String
  email : String
deriving DecidableEq, Repr

/-- POST `/api/auth/login`.  A failure carries the HTTP status code and the
response message. -/
def login (checkPassword : String → String → Bool) (email password : String)
    (db : DB) : Except (Nat × String) LoginOk :=
  match db.users.find? (fun u => u.email == email) with
  | none => .error (401, "Invalid email or password")
  | some u =>
    if checkPassword password u.password_hash then
      .ok { id := u.id, username := u.username, email := u.email }
    else
      .error (401, "Invalid email or password")

/-! ## Task list ordering

The SELECTs of GET `/api/tasks` and GET `/api/family/tasks` share the
ORDER BY clause

  `CASE WHEN status = 'pending' THEN 0 ELSE 1 END, priority DESC,
   created_at DESC`.

It is modelled as a lexicographic sort key: the pending flag ascending,
then the priority descending (a SQL NULL priority sorts first under
Postgres DESC ordering, hence the extra null flag), then the creation time
descending. -/

/-- The `CASE WHEN status = 'pending' THEN 0 ELSE 1 END` expression. -/
def pendingRank (status : Option String) : Nat :=
  if status == some "pending" then 0 else 1

/-- Lexicographic sort key of one row: pending flag, null-priority flag,
negated priority, negated creation time. -/
def rowKey (status : Option String) (priority : Option Int)
    (created_at : Int) : Lex (Nat × Lex (Nat × Lex (Int × Int))) :=
  toLex (pendingRank status,
    toLex ((match priority with | none => 0 | some _ => 1),
      toLex ((match priority with | none => 0 | some p => -p), -created_at)))

/-- Row comparison of the ORDER BY clause. -/
def rowLE (s1 : Option String) (p1 : Option Int) (c1 : Int)
    (s2 : Option String) (p2 : Option Int) (c2 : Int) : Bool :=
  decide (rowKey s1 p1 c1 ≤ rowKey s2 p2 c2)

/-- ORDER BY comparison for personal tasks. -/
def taskLE (a b : Task) : Bool :=
  rowLE a.status a.priority a.created_at b.status b.priority b.created_at

/-- ORDER BY comparison for family tasks. -/
def familyTaskLE (a b : FamilyTask) : Bool :=
  rowLE a.status a.priority a.created_at b.status b.priority b.created_at

/-- GET `/api/tasks`: the user's non-archived tasks in ORDER BY order. -/
def listTasks (userId : Nat) (db : DB) : List Task :=
  (db.tasks.filter (fun t => t.user_id == userId && !t.archived)).mergeSort
    taskLE

/-- GET `/api/family/tasks`: the tasks of families the user belongs to
(joined with the assignee user row for the display name) in ORDER BY
order. -/
def listFamilyTasks (userId : Nat) (db : DB) : List FamilyTask :=
  (db.family_tasks.filter (fun ft =>
    db.users.any (fun u => some u.id == ft.assigned_to) &&
    db.family_members.any (fun m =>
      m.family_id == ft.family_id && m.user_id == userId))).mergeSort
    familyTaskLE

/-! ## Dashboard aggregator (`src/routes/dashboard.js`, `src/unnamed/part_002`) -/

/-- One total/completed/pending counts row. -/
structure Counts where
  total_tasks : Nat
  completed_tasks : Nat
  pending_tasks : Nat
deriving DecidableEq, Repr

/-- The three COUNT aggregates over a list of task rows. -/
def countsOf (l : List Task) : Counts :=
  { total_tasks := l.length,
    completed_tasks := (l.filter (fun t => t.status == some "completed")).length,
    pending_tasks := (l.filter (fun t => t.status == some "pending")).length }

/-- One row of the weekly breakdown. -/
structure WeekRow where
  week_start : Int
  counts : Counts
deriving DecidableEq, Repr

/-- The GET `/api/dashboard/stats` response. -/
structure StatsResp where
  currentWeek : Counts
  weeklyData : List WeekRow
deriving DecidableEq, Repr

/-- The distinct week buckets of a task list, most recent first, at most
four (`GROUP BY week_start ORDER BY week_start DESC LIMIT 4`). -/
def weekBuckets (l : List Task) : List Int :=
  ((l.map (fun t => t.week_start)).dedup.mergeSort
    (fun a b => decide (b ≤ a))).take 4

/-- GET `/api/dashboard/stats`.  Both queries filter only on
`user_id = $1 AND archived = FALSE`; the `currentWeek` block carries no
`week_start` condition. -/
def getStats (userId : Nat) (db : DB) : StatsResp :=
  let mine := db.tasks.filter (fun t => t.user_id == userId && !t.archived)
  { currentWeek := countsOf mine,
    weeklyData := (weekBuckets mine).map (fun w =>
      { week_start := w,
        counts := countsOf (mine.filter (fun t => t.week_start == w)) }) }

/-- The current-week statistics as claim C4 states them: the counts of the
user's non-archived tasks restricted to the current week bucket.  Stated
from the claim's words, to be compared with `getStats`. -/
def claimCurrentWeekCounts (userId : Nat) (currentWeek : Int) (db : DB) :
    Counts :=
  countsOf (db.tasks.filter (fun t =>
    t.user_id == userId && !t.archived && t.week_start == currentWeek))

/-! ## Concrete example data used in witnesses -/

/-- The family used by the witness databases. -/
def exFamily : Family :=
  { id := 1, name := "Smith", created_by := 7, invitation_code := "ABC123" }

/-- A database with one family whose sole member is user 7. -/
def exDB1 : DB :=
  { users := [],
    tasks := [],
    families := [exFamily],
    family_members := [{ family_id := 1, user_id := 7 }],
    family_tasks := [] }

/-- A user row for login checks. -/
def exAlice : User :=
  { id := 1, username := "alice", email := "alice@x.io",
    password_hash := "HASH1" }

/-- The task written by the C10 witness create. -/
def exMilkTask : Task :=
  { id := 3
    user_id := 1
    title := "Buy milk"
    description := none
    priority := some 1
    status := some "pending"
    assigned_to := 1
    week_start := 14
    archived := false
    completed_at := none
    archived_at := none
    created_at := 100
    updated_at := 100 }

/-- A database with one family (code `ABC123`) and no members, and one
user row. -/
def exDB2 : DB :=
  { users := [exAlice],
    tasks := [],
    families := [exFamily],
    family_members := [],
    family_tasks := [] }

/-- An old-week task of user 1 (eligible for archiving at week 21). -/
def exTaskOld : Task :=
  { id := 11
    user_id := 1
    title := "Old"
    description := none
    priority := some 2
    status := some "pending"
    assigned_to := 1
    week_start := 0
    archived := false
    completed_at := none
    archived_at := none
    created_at := 1
    updated_at := 1 }

/-- A current-week task of user 1 (not eligible at week 21). -/
def exTaskNew : Task :=
  { id := 12
    user_id := 1
    title := "New"
    description := none
    priority := some 1
    status := some "completed"
    assigned_to := 1
    week_start := 21
    archived := false
    completed_at := some 2
    archived_at := none
    created_at := 2
    updated_at := 2 }

/-- A database with one old-week and one current-week task of user 1. -/
def exDB5 : DB :=
  { users := []
    tasks := [exTaskOld, exTaskNew]
    families := []
    family_members := []
    family_tasks := [] }

/-- Priority comparison of the claimed ordering: descending, with a SQL
NULL priority sorting before every value (Postgres DESC puts NULLs
first). -/
def priGE (p q : Option Int) : Prop :=
  match p, q with
  | none, _ => True
  | some _, none => False
  | some x, some y => y ≤ x

/-- The claimed list ordering between two rows: every pending row precedes
every non-pending row; inside a group priorities descend; at equal
priorities creation times descend. -/
def orderedRow (s1 : Option String) (p1 : Option Int) (c1 : Int)
    (s2 : Option String) (p2 : Option Int) (c2 : Int) : Prop :=
  pendingRank s1 ≤ pendingRank s2 ∧
  (pendingRank s1 = pendingRank s2 → priGE p1 p2) ∧
  (pendingRank s1 = pendingRank s2 → p1 = p2 → c2 ≤ c1)

/-- Whether an API result is a success. -/
def exceptOk {α : Type} (e : Except ApiError α) : Bool :=
  match e with
  | .ok _ => true
  | .error _ => false

/-- A second user row, not a member of any family. -/
def exCarol : User :=
  { id := 99, username := "carol", email := "carol@x.io",
    password_hash := "HASH9" }

/-- A family led by user 1. -/
def exLeaderFam : Family :=
  { id := 10, name := "Lee", created_by := 1, invitation_code := "LEE999" }

/-- The family task written by the C7 counterexample create: assigned to
user 99, who is not a member of family 10. -/
def exFT7 : FamilyTask :=
  { id := 55
    family_id := 10
    created_by := 1
    title := some "Chores"
    description := none
    priority := some 1
    status := some "pending"
    assigned_to := some 99
    week_start := 21
    completed_at := none
    created_at := 9
    updated_at := 9 }

/-- A database where user 1 leads family 10; users 1 and 2 are members,
user 99 exists but is in no family. -/
def exDB7 : DB :=
  { users := [exAlice, exCarol]
    tasks := []
    families := [exLeaderFam]
    family_members := [{ family_id := 10, user_id := 1 },
      { family_id := 10, user_id := 2 }]
    family_tasks := [] }

/-- `exDB7` with the family task `exFT7` present. -/
def exDB8 : DB :=
  { exDB7 with family_tasks := [exFT7] }

/-! ## Helper lemmas -/

theorem count_zero_of_not_any (ms : List FamilyMember) (u : Nat)
    (h : ms.any (fun m => m.user_id == u) = false) :
    (ms.filter (fun m => m.user_id == u)).length = 0 := by
  have : ms.filter (fun m => m.user_id == u) = [] := by
    rw [List.filter_eq_nil_iff]
    intro m hm
    have := List.any_eq_false.mp h m hm
    simpa using this
  simp [this]

/-- C1: family create and family join each run as an atomic check-then-act
transaction: when the user is already a member of any family both fail with
a Conflict and leave the database unchanged (no family row, no membership
row), and both preserve the invariant that every user has at most one
membership row. -/
theorem family_membership_atomic (db : DB) (u fid : Nat)
    (name codeGen : String) (ic : Option String)
    (hic : blankStr ic = false) :
    (db.family_members.any (fun m => m.user_id == u) = true →
      familyCreate u name codeGen fid db =
        (.error (.conflict "You are already a member of a family"), db) ∧
      familyJoin u ic db =
        (.error (.conflict "You are already a member of a family"), db)) ∧
    (∀ v, memberCount db v ≤ 1 →
      memberCount (familyCreate u name codeGen fid db).2 v ≤ 1 ∧
      memberCount (familyJoin u ic db).2 v ≤ 1) := by
  constructor
  · intro hmem
    constructor
    · simp [familyCreate, hmem]
    · simp [familyJoin, hic, hmem]
  · intro v hv
    by_cases hmem : db.family_members.any (fun m => m.user_id == u) = true
    · constructor
      · simp [familyCreate, hmem, memberCount]
        exact hv
      · simp [familyJoin, hic, hmem, memberCount]
        exact hv
    · have hmem0 : db.family_members.any (fun m => m.user_id == u) = false :=
        Bool.eq_false_iff.mpr hmem
      have hcnt : ∀ fid2 : Nat,
          (List.filter (fun m => m.user_id == v) db.family_members).length +
            (List.filter (fun m => m.user_id == v)
              [{ family_id := fid2, user_id := u : FamilyMember }]).length ≤
            1 := by
        intro fid2
        simp only [memberCount] at hv
        by_cases huv : u = v
        · subst huv
          have h0 := count_zero_of_not_any db.family_members u hmem0
          have h1 : (List.filter (fun m => m.user_id == u)
              [{ family_id := fid2, user_id := u : FamilyMember }]).length = 1 := by
            simp
          omega
        · have h1 : (List.filter (fun m => m.user_id == v)
              [{ family_id := fid2, user_id := u : FamilyMember }]).length = 0 := by
            simp [huv]
          omega
      constructor
      · simp [familyCreate, hmem0, memberCount]
        exact hcnt fid
      · cases hf : db.families.find? (fun f =>
            f.invitation_code == jsToUpper (jsTrim (ic.getD ""))) with
        | none =>
          simp [familyJoin, hic, hmem0, hf, memberCount]
          simpa [memberCount] using hv
        | some fam =>
          simp [familyJoin, hic, hmem0, hf, memberCount]
          exact hcnt fam.id

/-- Witness for C1 at a concrete database: user 7 is already a member, so
create and join both fail with the Conflict error and change nothing, and
the at-most-one-membership bound holds afterwards. -/
theorem family_membership_atomic_witness :
    blankStr (some "abc123") = false ∧
    (familyCreate 7 "G" "XYZ789" 2 exDB1 =
        (.error (.conflict "You are already a member of a family"), exDB1) ∧
      familyJoin 7 (some "abc123") exDB1 =
        (.error (.conflict "You are already a member of a family"), exDB1)) ∧
    (memberCount (familyCreate 7 "G" "XYZ789" 2 exDB1).2 7 ≤ 1 ∧
      memberCount (familyJoin 7 (some "abc123") exDB1).2 7 ≤ 1) :=
  ⟨by decide,
    (family_membership_atomic exDB1 7 2 "G" "XYZ789" (some "abc123")
      (by decide)).1 (by decide),
    (family_membership_atomic exDB1 7 2 "G" "XYZ789" (some "abc123")
      (by decide)).2 7 (by decide)⟩

/-- C9: for a user who is not yet a member, joining with a blank invitation
code fails with a ValidationError; a code matching no family after
normalization (trim, uppercase) fails with NotFound; and a code that
matches a family up to letter case succeeds and inserts exactly one
membership row.  The invitation-code generator is an external helper; per
the spec codes are unique, which is the `hcodes` hypothesis. -/
theorem family_join_code_handling (db : DB) (u : Nat) (ic : Option String)
    (fam : Family)
    (hnm : db.family_members.any (fun m => m.user_id == u) = false)
    (hcodes : (db.families.map (fun f => f.invitation_code)).Nodup) :
    (∀ ic0, blankStr ic0 = true →
      familyJoin u ic0 db =
        (.error (.validation "Invitation code is required"), db)) ∧
    (blankStr ic = false →
      (∀ f ∈ db.families,
        f.invitation_code ≠ jsToUpper (jsTrim (ic.getD ""))) →
      familyJoin u ic db = (.error (.notFound "Invalid invitation code"), db)) ∧
    (blankStr ic = false → fam ∈ db.families →
      fam.invitation_code = jsToUpper (jsTrim (ic.getD "")) →
      familyJoin u ic db = (.ok (fam.id, fam.name),
        { db with family_members := db.family_members ++
            [{ family_id := fam.id, user_id := u }] })) := by
  refine ⟨fun ic0 hb => by simp [familyJoin, hb], fun hb hnone => ?_,
    fun hb hmem hcode => ?_⟩
  · have hf : db.families.find? (fun f =>
        f.invitation_code == jsToUpper (jsTrim (ic.getD ""))) = none := by
      rw [List.find?_eq_none]
      intro f hfmem
      simpa using hnone f hfmem
    simp [familyJoin, hb, hnm, hf]
  · have hf : db.families.find? (fun f =>
        f.invitation_code == jsToUpper (jsTrim (ic.getD ""))) = some fam := by
      have hsome : (db.families.find? (fun f =>
          f.invitation_code == jsToUpper (jsTrim (ic.getD "")))).isSome := by
        rw [List.find?_isSome]
        exact ⟨fam, hmem, by simpa using hcode⟩
      cases hf2 : db.families.find? (fun f =>
          f.invitation_code == jsToUpper (jsTrim (ic.getD ""))) with
      | none => rw [hf2] at hsome; simp at hsome
      | some g =>
        have hgmem := List.mem_of_find?_eq_some hf2
        have hgcode : g.invitation_code = jsToUpper (jsTrim (ic.getD "")) := by
          have := List.find?_some hf2
          simpa using this
        have : g = fam :=
          List.inj_on_of_nodup_map hcodes hgmem hmem (by rw [hgcode, hcode])
        rw [this]
    simp [familyJoin, hb, hnm, hf]

/-- Witness for C9: joining family `Smith` (stored code `ABC123`) with the
lower-case, padded code `" abc123 "` succeeds and appends exactly one
membership row; a blank code and an unknown code fail as stated. -/
theorem family_join_code_handling_witness :
    exDB2.family_members.any (fun m => m.user_id == 9) = false ∧
    familyJoin 9 (some "   ") exDB2 =
      (.error (.validation "Invitation code is required"), exDB2) ∧
    familyJoin 9 (some "zzz") exDB2 =
      (.error (.notFound "Invalid invitation code"), exDB2) ∧
    familyJoin 9 (some " abc123 ") exDB2 =
      (.ok (1, "Smith"),
        { exDB2 with family_members := exDB2.family_members ++
            [{ family_id := 1, user_id := 9 }] }) :=
  ⟨by decide,
    (family_join_code_handling exDB2 9 (some " abc123 ") exFamily
        (by decide) (by decide)).1 (some "   ") (by decide),
    (family_join_code_handling exDB2 9 (some "zzz") exFamily
        (by decide) (by decide)).2.1 (by decide) (by decide),
    (family_join_code_handling exDB2 9 (some " abc123 ") exFamily
        (by decide) (by decide)).2.2 (by decide) (by decide) (by decide)⟩

/-- C6: every failing login attempt, whether the email is unknown or the
password does not match, returns status 401 with the identical error
message. -/
theorem login_failure_uniform (checkPassword : String → String → Bool)
    (email pw : String) (db : DB)
    (h : db.users.find? (fun u => u.email == email) = none ∨
      ∃ u, db.users.find? (fun u2 => u2.email == email) = some u ∧
        checkPassword pw u.password_hash = false) :
    login checkPassword email pw db =
      .error (401, "Invalid email or password") := by
  rcases h with h | ⟨u, hu, hpw⟩
  · simp [login, h]
  · simp [login, hu, hpw]

/-- Witness for C6: with one stored user, a login with an unknown email and
a login with the right email but wrong password return the identical
401 response. -/
theorem login_failure_uniform_witness :
    exDB2.users.find? (fun u => u.email == "nobody@x.io") = none ∧
    login (fun p h => p == h) "nobody@x.io" "pw" exDB2 =
      .error (401, "Invalid email or password") ∧
    (fun p (h : String) => p == h) "wrong" "HASH1" = false ∧
    login (fun p h => p == h) "alice@x.io" "wrong" exDB2 =
      .error (401, "Invalid email or password") :=
  ⟨by decide,
    login_failure_uniform (fun p h => p == h) "nobody@x.io" "pw" exDB2
      (Or.inl (by decide)),
    by decide,
    login_failure_uniform (fun p h => p == h) "alice@x.io" "wrong" exDB2
      (Or.inr ⟨exAlice, by decide, by decide⟩)⟩

/-- C10: a personal-task create whose priority is 0 (or missing) stores
priority 1, a falsy status is stored as `pending`, and no created task can
carry priority 0. -/
theorem create_falsy_defaults (u : Nat) (title : String)
    (d : Option String) (p : Option Int) (s : Option String) (ws : Int)
    (nid : Nat) (now : Int) (db : DB) :
    ((p = none ∨ p = some 0) → ∀ t db2,
      createTask u title d p s ws nid now db = (.ok t, db2) →
      t.priority = some 1) ∧
    ((s = none ∨ s = some "") → ∀ t db2,
      createTask u title d p s ws nid now db = (.ok t, db2) →
      t.status = some "pending") ∧
    (∀ t db2, createTask u title d p s ws nid now db = (.ok t, db2) →
      t.priority ≠ some 0) := by
  refine ⟨fun hp t db2 hok => ?_, fun hs t db2 hok => ?_, fun t db2 hok => ?_⟩
  · by_cases hv : validTitle title
    · simp [createTask, hv] at hok
      rcases hp with hp | hp <;> simp [← hok.1, jsOrInt, hp]
    · simp [createTask, hv] at hok
  · by_cases hv : validTitle title
    · simp [createTask, hv] at hok
      rcases hs with hs | hs <;> simp [← hok.1, jsOrString, hs]
    · simp [createTask, hv] at hok
  · by_cases hv : validTitle title
    · simp [createTask, hv] at hok
      cases p with
      | none => simp [← hok.1, jsOrInt]
      | some x =>
        by_cases hx : x = 0 <;> simp [← hok.1, jsOrInt, hx]
    · simp [createTask, hv] at hok

/-- Witness for C10: creating with priority 0 and the empty status stores
priority 1 and status `pending`. -/
theorem create_falsy_defaults_witness :
    (createTask 1 "Buy milk" none (some 0) (some "") 14 3 100 exDB2).1 =
      .ok exMilkTask ∧
    ((some 0 : Option Int) = none ∨ (some 0 : Option Int) = some 0) ∧
    (∀ t db2, createTask 1 "Buy milk" none (some 0) (some "") 14 3 100 exDB2 =
        (.ok t, db2) → t.priority = some 1) :=
  ⟨rfl, Or.inr rfl,
    (create_falsy_defaults 1 "Buy milk" none (some 0) (some "") 14 3 100
      exDB2).1 (Or.inr rfl)⟩

theorem completed_iff_status_aux (s : Option String) (now : Int) :
    ((if s = some "completed" then some now else none) ≠ (none : Option Int) ↔
      some (jsOrString s "pending") = some "completed") := by
  rcases s with _ | v
  · simp [jsOrString]
  · by_cases hc : v = "completed"
    · simp [jsOrString, hc]
    · by_cases he : v = ""
      · simp [jsOrString, he, hc]
      · simp [jsOrString, he, hc]

theorem completed_iff_raw_aux (s : Option String) (now : Int) :
    ((if s = some "completed" then some now else none) ≠ (none : Option Int) ↔
      s = some "completed") := by
  by_cases hc : s = some "completed" <;> simp [hc]

/-- C2: a personal-task create and a personal- or family-task update store
a row (also the returned row) whose `completed_at` is non-null exactly when
its (new) status is `completed`. -/
theorem completed_at_iff_status (u tid : Nat) (title : String)
    (d : Option String) (p : Option Int) (s : Option String) (ws : Int)
    (nid : Nat) (now : Int) (db : DB) (ftitle fdesc : Option String)
    (fassigned : Option Nat) :
    (∀ t db2, createTask u title d p s ws nid now db = (.ok t, db2) →
      ((t.completed_at ≠ none ↔ t.status = some "completed") ∧
        t ∈ db2.tasks)) ∧
    (∀ t db2, updateTask u tid title d p s now db = (.ok t, db2) →
      ((t.completed_at ≠ none ↔ t.status = some "completed") ∧
        t ∈ db2.tasks)) ∧
    (∀ t db2, familyTaskUpdate u tid ftitle fdesc p s fassigned now db =
        (.ok t, db2) →
      ((t.completed_at ≠ none ↔ t.status = some "completed") ∧
        t ∈ db2.family_tasks)) := by
  refine ⟨fun t db2 hok => ?_, fun t db2 hok => ?_, fun t db2 hok => ?_⟩
  · by_cases hv : validTitle title
    · simp [createTask, hv] at hok
      obtain ⟨ht, hdb⟩ := hok
      constructor
      · rw [← ht]
        exact completed_iff_status_aux s now
      · rw [← hdb, ← ht]
        simp
    · simp [createTask, hv] at hok
  · by_cases hv : validTitle title
    · cases hfind : db.tasks.find? (fun t2 => t2.id == tid && t2.user_id == u) with
      | none => simp [updateTask, hv, hfind] at hok
      | some t0 =>
        simp [updateTask, hv, hfind] at hok
        obtain ⟨ht, hdb⟩ := hok
        have hmem0 := List.mem_of_find?_eq_some hfind
        have hpred : t0.id = tid ∧ t0.user_id = u := by
          simpa using List.find?_some hfind
        constructor
        · rw [← ht]
          simp only [applyTaskUpdate, beq_iff_eq]
          exact completed_iff_raw_aux s now
        · rw [← hdb, ← ht]
          refine List.mem_map.mpr ⟨t0, hmem0, ?_⟩
          rw [if_pos hpred]
    · simp [updateTask, hv] at hok
  · cases hlk : familyTaskLookup u tid db with
    | none => simp [familyTaskUpdate, hlk] at hok
    | some pair =>
      obtain ⟨ft0, fam0⟩ := pair
      by_cases hperm : (fam0.created_by != u && ft0.assigned_to != some u) = true
      · simp [familyTaskUpdate, hlk, hperm] at hok
      · simp [familyTaskUpdate, hlk, hperm] at hok
        obtain ⟨ht, hdb⟩ := hok
        have hfind0 : db.family_tasks.find? (fun x => x.id == tid) = some ft0 := by
          cases hf1 : db.family_tasks.find? (fun x => x.id == tid) with
          | none => simp [familyTaskLookup, hf1] at hlk
          | some y =>
            cases hf2 : db.families.find? (fun f => f.id == y.family_id) with
            | none => simp [familyTaskLookup, hf1, hf2] at hlk
            | some g =>
              by_cases hm : (db.family_members.any (fun m =>
                  m.family_id == y.family_id && m.user_id == u)) = true
              · simp [familyTaskLookup, hf1, hf2, hm] at hlk
                exact congrArg some hlk.1
              · simp [familyTaskLookup, hf1, hf2, hm] at hlk
        have hmem0 := List.mem_of_find?_eq_some hfind0
        have hpred : ft0.id = tid := by
          simpa using List.find?_some hfind0
        constructor
        · rw [← ht]
          simp only [applyFamilyTaskUpdate, beq_iff_eq]
          exact completed_iff_raw_aux s now
        · rw [← hdb, ← ht]
          refine List.mem_map.mpr ⟨ft0, hmem0, ?_⟩
          rw [if_pos hpred]

/-- Witness for C2: a create with status `completed` stores a non-null
completion timestamp, and an update back to `pending` clears it. -/
theorem completed_at_iff_status_witness :
    ((createTask 1 "Read" none none (some "completed") 14 3 100 exDB2).1.map
      (fun t => (t.completed_at, t.status)) =
        .ok (some 100, some "completed")) ∧
    (∀ t db2, createTask 1 "Read" none none (some "completed") 14 3 100 exDB2 =
        (.ok t, db2) →
      ((t.completed_at ≠ none ↔ t.status = some "completed") ∧
        t ∈ db2.tasks)) :=
  ⟨rfl,
    (completed_at_iff_status 1 0 "Read" none none (some "completed") 14 3 100
      exDB2 none none none).1⟩

/-- C5: archiving marks exactly those non-archived tasks of the user whose
week bucket lies strictly before the bucket of the previous week, stamps an
archival timestamp, returns the number archived, archives zero when run
again immediately, and no operation un-archives a task. -/
theorem archive_exact_idempotent_monotone (u : Nat) (ws now now2 : Int)
    (db : DB) (tid nid : Nat) (title : String) (d : Option String)
    (p : Option Int) (s : Option String) :
    (archiveTasks u ws now db).1 =
      (db.tasks.filter (archiveEligible u (ws - 7))).length ∧
    (∀ t2 ∈ (archiveTasks u ws now db).2.tasks, ∃ t ∈ db.tasks,
      t2.id = t.id ∧
      (archiveEligible u (ws - 7) t = true →
        t2.archived = true ∧ t2.archived_at = some now) ∧
      (archiveEligible u (ws - 7) t = false → t2 = t)) ∧
    (archiveTasks u ws now2 (archiveTasks u ws now db).2).1 = 0 ∧
    (∀ t ∈ db.tasks, t ∈ (createTask u title d p s ws nid now db).2.tasks) ∧
    (∀ t2 ∈ (updateTask u tid title d p s now db).2.tasks, ∃ t ∈ db.tasks,
      t2.id = t.id ∧ t2.archived = t.archived) ∧
    (∀ t2 ∈ (deleteTask u tid db).2.tasks, t2 ∈ db.tasks) ∧
    (∀ t2 ∈ (archiveTasks u ws now db).2.tasks, ∃ t ∈ db.tasks,
      t2.id = t.id ∧ (t.archived = true → t2.archived = true)) := by
  refine ⟨rfl, fun t2 ht2 => ?_, ?_, fun t ht => ?_, fun t2 ht2 => ?_,
    fun t2 ht2 => ?_, fun t2 ht2 => ?_⟩
  · simp only [archiveTasks] at ht2
    obtain ⟨t, hmem, hf⟩ := List.mem_map.1 ht2
    refine ⟨t, hmem, ?_, ?_, ?_⟩
    · by_cases h : archiveEligible u (ws - 7) t = true <;>
        simp [h] at hf <;> simp [← hf]
    · intro h
      simp [h] at hf
      simp [← hf]
    · intro h
      simp [h] at hf
      exact hf.symm
  · simp only [archiveTasks]
    rw [List.length_eq_zero, List.filter_eq_nil_iff]
    intro t2 ht2
    obtain ⟨t, hmem, hf⟩ := List.mem_map.1 ht2
    by_cases h : archiveEligible u (ws - 7) t = true
    · simp [h] at hf
      simp [← hf, archiveEligible]
    · simp [h] at hf
      rw [← hf]
      simp at h
      simp [h]
  · by_cases hv : validTitle title
    · simp [createTask, hv]
      exact Or.inl ht
    · simp [createTask, hv]
      exact ht
  · by_cases hv : validTitle title
    · cases hfind : db.tasks.find? (fun t3 => t3.id == tid && t3.user_id == u) with
      | none =>
        simp [updateTask, hv, hfind] at ht2
        exact ⟨t2, ht2, rfl, rfl⟩
      | some t0 =>
        simp [updateTask, hv, hfind] at ht2
        obtain ⟨t, hmem, hf⟩ := ht2
        by_cases hc : t.id = tid ∧ t.user_id = u
        · rw [if_pos hc] at hf
          exact ⟨t, hmem, by rw [← hf]; exact ⟨rfl, rfl⟩⟩
        · rw [if_neg hc] at hf
          exact ⟨t, hmem, by rw [← hf]; exact ⟨rfl, rfl⟩⟩
    · simp [updateTask, hv] at ht2
      exact ⟨t2, ht2, rfl, rfl⟩
  · by_cases hd : db.tasks.any (fun t3 => t3.id == tid && t3.user_id == u) = true
    · simp [deleteTask, hd] at ht2
      exact ht2.1
    · simp [deleteTask, hd] at ht2
      exact ht2
  · simp only [archiveTasks] at ht2
    obtain ⟨t, hmem, hf⟩ := List.mem_map.1 ht2
    by_cases h : archiveEligible u (ws - 7) t = true
    · simp [h] at hf
      exact ⟨t, hmem, by rw [← hf], by intro _; rw [← hf]⟩
    · simp [h] at hf
      exact ⟨t, hmem, by rw [← hf], fun ha => by rw [← hf]; exact ha⟩

/-- Witness for C5: at week start 21, the week-0 task is archived (count 1)
and a second archive run archives nothing. -/
theorem archive_exact_idempotent_monotone_witness :
    (archiveTasks 1 21 50 exDB5).1 = 1 ∧
    (archiveTasks 1 21 50 exDB5).1 =
      (exDB5.tasks.filter (archiveEligible 1 (21 - 7))).length ∧
    (archiveTasks 1 21 60 (archiveTasks 1 21 50 exDB5).2).1 = 0 :=
  ⟨by decide,
    (archive_exact_idempotent_monotone 1 21 50 60 exDB5 0 9 "T" none none
      none).1,
    (archive_exact_idempotent_monotone 1 21 50 60 exDB5 0 9 "T" none none
      none).2.2.1⟩

/-- C7 counterexample: the family-task create accepts an assignee who is
not a member of the owning family.  In `exDB7` user 99 has no membership
row, yet the leader creates a task assigned to user 99 and the request
succeeds. -/
theorem family_task_create_nonmember_assignee :
    (familyTaskCreate 1 (some "Chores") none none (some 99) 21 55 9
      exDB7).1 = .ok exFT7 ∧
    exDB7.family_members.any (fun m => m.user_id == 99) = false :=
  ⟨rfl, by decide⟩

/-- C7 (amended): the family-task create succeeds exactly when the title is
non-blank, an assignee is given, and the requester belongs to a family and
is its leader -- the membership of the assignee in the family is not
checked; editing a family task is restricted to the family leader or the
current assignee. -/
theorem family_task_permissions_amended (u : Nat)
    (title description : Option String) (p : Option Int) (asg : Option Nat)
    (ws : Int) (nid : Nat) (now : Int) (db : DB) (tid : Nat)
    (ft fd : Option String) (fp : Option Int) (fs : Option String)
    (fa : Option Nat) :
    (exceptOk (familyTaskCreate u title description p asg ws nid now db).1 =
        true ↔
      (blankStr title = false ∧ asg ≠ none ∧ asg ≠ some 0 ∧
        ∃ fam, userFamily u db = some fam ∧ fam.created_by = u)) ∧
    (∀ t db2, familyTaskUpdate u tid ft fd fp fs fa now db = (.ok t, db2) →
      ∃ ftk fam, familyTaskLookup u tid db = some (ftk, fam) ∧
        (fam.created_by = u ∨ ftk.assigned_to = some u)) := by
  constructor
  · by_cases hb : blankStr title = true
    · simp [familyTaskCreate, hb, exceptOk]
    · have hb0 : blankStr title = false := Bool.eq_false_iff.mpr hb
      by_cases ha : asg = none ∨ asg = some 0
      · have hcond : (asg == none || asg == some 0) = true := by
          rcases ha with h | h <;> simp [h]
        constructor
        · intro hok
          simp [familyTaskCreate, hb0, hcond, exceptOk] at hok
        · rintro ⟨-, h1, h2, -⟩
          rcases ha with h | h
          · exact absurd h h1
          · exact absurd h h2
      · push_neg at ha
        have hcond : (asg == none || asg == some 0) = false := by
          simp [ha.1, ha.2]
        cases huf : userFamily u db with
        | none =>
          simp [familyTaskCreate, hb0, hcond, huf, exceptOk]
        | some fam =>
          by_cases hld : fam.created_by = u
          · simp [familyTaskCreate, hb0, hcond, huf, hld, exceptOk]
            exact ⟨ha.1, ha.2⟩
          · have hbne : (fam.created_by != u) = true := by simp [hld]
            simp [familyTaskCreate, hb0, hcond, huf, hbne, exceptOk, hld]
  · intro t db2 hok
    cases hlk : familyTaskLookup u tid db with
    | none => simp [familyTaskUpdate, hlk] at hok
    | some pair =>
      obtain ⟨ft0, fam0⟩ := pair
      by_cases hperm : (fam0.created_by != u && ft0.assigned_to != some u) = true
      · simp [familyTaskUpdate, hlk, hperm] at hok
      · refine ⟨ft0, fam0, rfl, ?_⟩
        rcases Bool.and_eq_false_iff.mp (Bool.eq_false_iff.mpr hperm) with h | h
        · left
          simpa using h
        · right
          simpa using h

/-- Witness for C7 (amended): the leader of family 10 can create a task
assigned to non-member user 99, and a successful update implies the editor
was the leader or the assignee. -/
theorem family_task_permissions_amended_witness :
    exceptOk (familyTaskCreate 1 (some "Chores") none none (some 99) 21 55 9
      exDB7).1 = true ∧
    (∃ ftk fam, familyTaskLookup 1 55 exDB8 = some (ftk, fam) ∧
      (fam.created_by = 1 ∨ ftk.assigned_to = some 1)) :=
  ⟨(family_task_permissions_amended 1 (some "Chores") none none (some 99) 21
      55 9 exDB7 0 none none none none none).1.mpr
      ⟨by decide, by decide, by decide, exLeaderFam, by decide, rfl⟩,
    (family_task_permissions_amended 1 none none none none 21 0 30 exDB8 55
      (some "Chores2") none (some 2) (some "completed") (some 99)).2 _ _ rfl⟩

/-- C8: a family-task update returns NotFound when the task does not exist
within a family the requester belongs to, and Forbidden when the requester
is neither the leader nor the current assignee; a family-task delete
returns the single combined not-found-or-no-permission 404 whenever the
requester is not the leader of the family that owns the task. -/
theorem family_task_update_delete_errors (u tid : Nat)
    (ft fd : Option String) (fp : Option Int) (fs : Option String)
    (fa : Option Nat) (now : Int) (db : DB) :
    (familyTaskLookup u tid db = none →
      familyTaskUpdate u tid ft fd fp fs fa now db =
        (.error (.notFound "Task not found"), db)) ∧
    ((∀ ftk ∈ db.family_tasks, ftk.id = tid →
        db.family_members.any (fun m =>
          m.family_id == ftk.family_id && m.user_id == u) = false) →
      familyTaskLookup u tid db = none) ∧
    (∀ ftk fam, familyTaskLookup u tid db = some (ftk, fam) →
      fam.created_by ≠ u → ftk.assigned_to ≠ some u →
      familyTaskUpdate u tid ft fd fp fs fa now db =
        (.error
          (.forbidden "You don\x27t have permission to update this task"),
          db)) ∧
    ((∀ ftk ∈ db.family_tasks, ftk.id = tid →
        ∀ fam ∈ db.families, fam.id = ftk.family_id → fam.created_by ≠ u) →
      familyTaskDelete u tid db =
        (.error (.notFound
          "Task not found or you don\x27t have permission to delete it"),
          db)) := by
  refine ⟨fun h => by simp [familyTaskUpdate, h], fun h => ?_,
    fun ftk fam hlk h1 h2 => ?_, fun h => ?_⟩
  · cases hf1 : db.family_tasks.find? (fun x => x.id == tid) with
    | none => simp [familyTaskLookup, hf1]
    | some y =>
      have hymem := List.mem_of_find?_eq_some hf1
      have hyid : y.id = tid := by simpa using List.find?_some hf1
      have hany := h y hymem hyid
      cases hf2 : db.families.find? (fun f => f.id == y.family_id) with
      | none => simp [familyTaskLookup, hf1, hf2]
      | some g => simp [familyTaskLookup, hf1, hf2, hany]
  · have hcond : (fam.created_by != u && ftk.assigned_to != some u) = true := by
      simp [bne_iff_ne]
      exact ⟨h1, h2⟩
    simp [familyTaskUpdate, hlk, hcond]
  · have hallow : familyTaskDeleteAllowed u tid db = false := by
      cases hf1 : db.family_tasks.find? (fun x => x.id == tid) with
      | none => simp [familyTaskDeleteAllowed, hf1]
      | some y =>
        have hymem := List.mem_of_find?_eq_some hf1
        have hyid : y.id = tid := by simpa using List.find?_some hf1
        cases hf2 : db.families.find? (fun f => f.id == y.family_id) with
        | none => simp [familyTaskDeleteAllowed, hf1, hf2]
        | some g =>
          have hgmem := List.mem_of_find?_eq_some hf2
          have hgid : g.id = y.family_id := by simpa using List.find?_some hf2
          have hne := h y hymem hyid g hgmem hgid
          simp [familyTaskDeleteAllowed, hf1, hf2, hne]
    simp [familyTaskDelete, hallow]

/-- Witness for C8 at `exDB8`: user 50 (no membership) gets NotFound on
update; user 2 (member, neither leader nor assignee) gets Forbidden on
update and the combined 404 on delete. -/
theorem family_task_update_delete_errors_witness :
    familyTaskLookup 50 55 exDB8 = none ∧
    familyTaskUpdate 50 55 none none none none none 30 exDB8 =
      (.error (.notFound "Task not found"), exDB8) ∧
    familyTaskLookup 2 55 exDB8 = some (exFT7, exLeaderFam) ∧
    familyTaskUpdate 2 55 none none none none none 30 exDB8 =
      (.error
        (.forbidden "You don\x27t have permission to update this task"),
        exDB8) ∧
    familyTaskDelete 2 55 exDB8 =
      (.error (.notFound
        "Task not found or you don\x27t have permission to delete it"),
        exDB8) :=
  ⟨by decide,
    (family_task_update_delete_errors 50 55 none none none none none 30
      exDB8).1 (by decide),
    by decide,
    (family_task_update_delete_errors 2 55 none none none none none 30
      exDB8).2.2.1 exFT7 exLeaderFam (by decide) (by decide) (by decide),
    (family_task_update_delete_errors 2 55 none none none none none 30
      exDB8).2.2.2 (by decide)⟩

theorem rowLE_trans {s1 s2 s3 : Option String} {p1 p2 p3 : Option Int}
    {c1 c2 c3 : Int} (h1 : rowLE s1 p1 c1 s2 p2 c2 = true)
    (h2 : rowLE s2 p2 c2 s3 p3 c3 = true) :
    rowLE s1 p1 c1 s3 p3 c3 = true := by
  simp only [rowLE, decide_eq_true_iff] at *
  exact le_trans h1 h2

theorem rowLE_total (s1 s2 : Option String) (p1 p2 : Option Int)
    (c1 c2 : Int) :
    (rowLE s1 p1 c1 s2 p2 c2 || rowLE s2 p2 c2 s1 p1 c1) = true := by
  simp only [rowLE, Bool.or_eq_true, decide_eq_true_iff]
  exact le_total _ _

theorem rowLE_spec {s1 s2 : Option String} {p1 p2 : Option Int}
    {c1 c2 : Int} (h : rowLE s1 p1 c1 s2 p2 c2 = true) :
    orderedRow s1 p1 c1 s2 p2 c2 := by
  simp only [rowLE, rowKey, decide_eq_true_iff] at h
  rcases (Prod.Lex.le_iff _ _).1 h with h1 | ⟨h1, h2⟩
  · exact ⟨le_of_lt h1, fun he => absurd he (ne_of_lt h1),
      fun he _ => absurd he (ne_of_lt h1)⟩
  · refine ⟨le_of_eq h1, fun _ => ?_, fun _ hp => ?_⟩
    · rcases p1 with _ | x <;> rcases p2 with _ | y
      · trivial
      · trivial
      · exfalso
        rcases (Prod.Lex.le_iff _ _).1 h2 with g1 | ⟨g1, -⟩
        · simp at g1
        · simp at g1
      · rcases (Prod.Lex.le_iff _ _).1 h2 with g1 | ⟨-, g2⟩
        · simp at g1
        · rcases (Prod.Lex.le_iff _ _).1 g2 with m1 | ⟨m1, -⟩
          · simp only [] at m1
            show y ≤ x
            omega
          · simp only [] at m1
            show y ≤ x
            omega
    · rcases p1 with _ | x
      · rcases hp with rfl
        rcases (Prod.Lex.le_iff _ _).1 h2 with g1 | ⟨-, g2⟩
        · simp at g1
        · rcases (Prod.Lex.le_iff _ _).1 g2 with m1 | ⟨-, m2⟩
          · simp at m1
          · simp only [] at m2
            omega
      · rcases hp with rfl
        rcases (Prod.Lex.le_iff _ _).1 h2 with g1 | ⟨-, g2⟩
        · simp at g1
        · rcases (Prod.Lex.le_iff _ _).1 g2 with m1 | ⟨-, m2⟩
          · simp at m1
          · simp only [] at m2
            omega

theorem taskLE_trans (a b c : Task) (h1 : taskLE a b = true)
    (h2 : taskLE b c = true) : taskLE a c = true :=
  rowLE_trans h1 h2

theorem taskLE_total (a b : Task) : (taskLE a b || taskLE b a) = true :=
  rowLE_total _ _ _ _ _ _

theorem familyTaskLE_trans (a b c : FamilyTask) (h1 : familyTaskLE a b = true)
    (h2 : familyTaskLE b c = true) : familyTaskLE a c = true :=
  rowLE_trans h1 h2

theorem familyTaskLE_total (a b : FamilyTask) :
    (familyTaskLE a b || familyTaskLE b a) = true :=
  rowLE_total _ _ _ _ _ _

/-- C3: listing personal tasks returns exactly the non-archived tasks of
the user (as a permutation of the filtered table), and the output is
pairwise ordered: pending rows precede all others, then priority descends,
then creation time descends; the family-task listing enjoys the same
ordering over the tasks of the families the user belongs to. -/
theorem task_list_filter_and_order (u : Nat) (db : DB) :
    (listTasks u db).Perm
      (db.tasks.filter (fun t => t.user_id == u && !t.archived)) ∧
    (∀ t ∈ listTasks u db, t.user_id = u ∧ t.archived = false) ∧
    (listTasks u db).Pairwise (fun a b =>
      orderedRow a.status a.priority a.created_at
        b.status b.priority b.created_at) ∧
    (listFamilyTasks u db).Perm
      (db.family_tasks.filter (fun ft =>
        db.users.any (fun u2 => some u2.id == ft.assigned_to) &&
        db.family_members.any (fun m =>
          m.family_id == ft.family_id && m.user_id == u))) ∧
    (∀ t ∈ listFamilyTasks u db, ∃ m ∈ db.family_members,
      m.family_id = t.family_id ∧ m.user_id = u) ∧
    (listFamilyTasks u db).Pairwise (fun a b =>
      orderedRow a.status a.priority a.created_at
        b.status b.priority b.created_at) := by
  refine ⟨List.mergeSort_perm _ _, fun t ht => ?_, ?_,
    List.mergeSort_perm _ _, fun t ht => ?_, ?_⟩
  · have hmem : t ∈ db.tasks.filter (fun t2 => t2.user_id == u && !t2.archived) :=
      (List.mergeSort_perm _ _).subset ht
    have := List.of_mem_filter hmem
    simpa using this
  · have hs := List.sorted_mergeSort taskLE_trans taskLE_total
      (db.tasks.filter (fun t2 => t2.user_id == u && !t2.archived))
    exact hs.imp (fun hab => rowLE_spec hab)
  · have hmem : t ∈ db.family_tasks.filter (fun ft =>
        db.users.any (fun u2 => some u2.id == ft.assigned_to) &&
        db.family_members.any (fun m =>
          m.family_id == ft.family_id && m.user_id == u)) :=
      (List.mergeSort_perm _ _).subset ht
    have hp := List.of_mem_filter hmem
    have hany : db.family_members.any (fun m =>
        m.family_id == t.family_id && m.user_id == u) = true := by
      simp only [Bool.and_eq_true] at hp
      exact hp.2
    obtain ⟨m, hm, hmp⟩ := List.any_eq_true.mp hany
    have hmp2 : m.family_id = t.family_id ∧ m.user_id = u := by
      simpa using hmp
    exact ⟨m, hm, hmp2.1, hmp2.2⟩
  · have hs := List.sorted_mergeSort familyTaskLE_trans familyTaskLE_total
      (db.family_tasks.filter (fun ft =>
        db.users.any (fun u2 => some u2.id == ft.assigned_to) &&
        db.family_members.any (fun m =>
          m.family_id == ft.family_id && m.user_id == u)))
    exact hs.imp (fun hab => rowLE_spec hab)

/-- Witness for C3 at a concrete database with two tasks. -/
theorem task_list_filter_and_order_witness :
    (listTasks 1 exDB5).Perm
      (exDB5.tasks.filter (fun t => t.user_id == 1 && !t.archived)) ∧
    (listTasks 1 exDB5).Pairwise (fun a b =>
      orderedRow a.status a.priority a.created_at
        b.status b.priority b.created_at) :=
  ⟨(task_list_filter_and_order 1 exDB5).1,
    (task_list_filter_and_order 1 exDB5).2.2.1⟩

/-- C4 counterexample: the code computes the `currentWeek` stats block with
no week filter.  In `exDB5` the current bucket is 21 and user 1 has one
task in bucket 21 and one non-archived task left in bucket 0; the response
reports 2 total tasks where the claim (restricted to the current bucket)
says 1. -/
theorem stats_current_week_counterexample :
    (getStats 1 exDB5).currentWeek.total_tasks = 2 ∧
    (claimCurrentWeekCounts 1 21 exDB5).total_tasks = 1 ∧
    (getStats 1 exDB5).currentWeek ≠ claimCurrentWeekCounts 1 21 exDB5 := by
  refine ⟨rfl, rfl, by decide⟩

theorem intGE_trans (a b c : Int) (h1 : decide (b ≤ a) = true)
    (h2 : decide (c ≤ b) = true) : decide (c ≤ a) = true := by
  simp only [decide_eq_true_iff] at *
  exact le_trans h2 h1

theorem intGE_total (a b : Int) :
    (decide (b ≤ a) || decide (a ≤ b)) = true := by
  simp only [Bool.or_eq_true, decide_eq_true_iff]
  exact le_total b a

theorem weekBuckets_sorted (l : List Task) :
    ((l.map (fun t => t.week_start)).dedup.mergeSort
      (fun a b => decide (b ≤ a))).Pairwise (fun a b => b < a) := by
  have hnd : ((l.map (fun t => t.week_start)).dedup.mergeSort
      (fun a b => decide (b ≤ a))).Nodup :=
    ((List.mergeSort_perm _ _).nodup_iff).mpr
      (List.nodup_dedup _)
  have hsorted := List.sorted_mergeSort intGE_trans intGE_total
    (l.map (fun t => t.week_start)).dedup
  refine (hsorted.and hnd).imp ?_
  intro a b hab
  have h1 : b ≤ a := by simpa using hab.1
  exact lt_of_le_of_ne h1 (Ne.symm hab.2)

theorem weekBuckets_pairwise (l : List Task) :
    (weekBuckets l).Pairwise (fun a b => b < a) :=
  List.Pairwise.sublist (List.take_sublist 4 _) (weekBuckets_sorted l)

theorem weekBuckets_sub (l : List Task) (b : Int) (hb : b ∈ weekBuckets l) :
    b ∈ l.map (fun t => t.week_start) := by
  have h1 : b ∈ (l.map (fun t => t.week_start)).dedup.mergeSort
      (fun a b => decide (b ≤ a)) := (List.take_sublist 4 _).mem hb
  have h2 : b ∈ (l.map (fun t => t.week_start)).dedup :=
    (List.mergeSort_perm _ _).subset h1
  exact (List.mem_dedup).1 h2

theorem weekBuckets_len (l : List Task) : (weekBuckets l).length ≤ 4 := by
  simp only [weekBuckets]
  exact List.length_take_le _ _

theorem weekBuckets_complete (l : List Task) (w : Int)
    (hw : w ∈ l.map (fun t => t.week_start)) (hnot : w ∉ weekBuckets l) :
    ∀ b ∈ weekBuckets l, w < b := by
  intro b hb
  have hwL : w ∈ (l.map (fun t => t.week_start)).dedup.mergeSort
      (fun a b => decide (b ≤ a)) := by
    rw [(List.mergeSort_perm _ _).mem_iff, List.mem_dedup]
    exact hw
  have hsorted := weekBuckets_sorted l
  rw [← List.take_append_drop 4 ((l.map (fun t => t.week_start)).dedup.mergeSort
      (fun a b => decide (b ≤ a)))] at hsorted hwL
  have hsplit := (List.pairwise_append.1 hsorted).2.2
  rcases List.mem_append.1 hwL with h | h
  · exact absurd h hnot
  · exact hsplit b hb w h

/-- C4 (amended): the `currentWeek` block of the stats response counts all
of the non-archived tasks of the user (the query carries no week filter),
and the weekly breakdown reports the same three counts for the last at
most 4 distinct week buckets among those tasks, most recent first, each
bucket containing at least one such task; every bucket left out is older
than all reported buckets. -/
theorem stats_counts_amended (u : Nat) (db : DB) :
    (getStats u db).currentWeek =
      countsOf (db.tasks.filter (fun t => t.user_id == u && !t.archived)) ∧
    (getStats u db).weeklyData.length ≤ 4 ∧
    ((getStats u db).weeklyData.map (fun r => r.week_start)).Pairwise
      (fun a b => b < a) ∧
    (∀ r ∈ (getStats u db).weeklyData,
      r.counts = countsOf ((db.tasks.filter (fun t =>
          t.user_id == u && !t.archived)).filter
        (fun t => t.week_start == r.week_start)) ∧
      ∃ t ∈ db.tasks.filter (fun t => t.user_id == u && !t.archived),
        t.week_start = r.week_start) ∧
    (∀ w, (∃ t ∈ db.tasks.filter (fun t => t.user_id == u && !t.archived),
        t.week_start = w) →
      (∀ r ∈ (getStats u db).weeklyData, r.week_start ≠ w) →
      ∀ r ∈ (getStats u db).weeklyData, w < r.week_start) := by
  refine ⟨rfl, ?_, ?_, fun r hr => ?_, fun w hw hnot r hr => ?_⟩
  · simp only [getStats, List.length_map]
    exact weekBuckets_len _
  · have h1 : ((getStats u db).weeklyData.map (fun r => r.week_start)) =
        weekBuckets (db.tasks.filter (fun t => t.user_id == u && !t.archived)) := by
      simp only [getStats, List.map_map]
      exact List.map_id _
    rw [h1]
    exact weekBuckets_pairwise _
  · simp only [getStats, List.mem_map] at hr
    obtain ⟨w, hwb, hrw⟩ := hr
    constructor
    · rw [← hrw]
    · have := weekBuckets_sub _ w hwb
      obtain ⟨t, htmem, htw⟩ := List.mem_map.1 this
      exact ⟨t, htmem, by rw [← hrw]; exact htw⟩
  · obtain ⟨t, htmem, htw⟩ := hw
    have hwmem : w ∈ (db.tasks.filter (fun t =>
        t.user_id == u && !t.archived)).map (fun t => t.week_start) :=
      List.mem_map.2 ⟨t, htmem, htw⟩
    have hwnot : w ∉ weekBuckets (db.tasks.filter (fun t =>
        t.user_id == u && !t.archived)) := by
      intro hmem
      refine hnot ⟨w, countsOf ((db.tasks.filter (fun t =>
          t.user_id == u && !t.archived)).filter
        (fun t => t.week_start == w))⟩ ?_ rfl
      simp only [getStats, List.mem_map]
      exact ⟨w, hmem, rfl⟩
    simp only [getStats, List.mem_map] at hr
    obtain ⟨b, hbmem, hbr⟩ := hr
    have := weekBuckets_complete _ w hwmem hwnot b hbmem
    rw [← hbr]
    exact this

/-- Witness for C4 (amended) at a concrete database. -/
theorem stats_counts_amended_witness :
    (getStats 1 exDB5).currentWeek =
      countsOf (exDB5.tasks.filter (fun t => t.user_id == 1 && !t.archived)) ∧
    (getStats 1 exDB5).weeklyData.length ≤ 4 :=
  ⟨(stats_counts_amended 1 exDB5).1, (stats_counts_amended 1 exDB5).2.1⟩

end TaskFlow
